import Mathlib

/-!
Verification of the zipline quarter-estimates loader
(`zipline/pipeline/loaders/quarter_estimates.py`).

The Python source is shallowly embedded: pandas/numpy idioms become explicit
list computations, integers are `Int`/`Nat` (Python integer division is floor
division, hence `Int.fdiv`/`Int.fmod`), nullable cells are `Option`, and a
Python function that can fall through without returning becomes a function
into `Option`.
-/

/-! ## Quarter codec -/

/-- Embeds `normalize_quarters(years, quarters) = years * 4 + quarters - 1`. -/
def normalize_quarters (years quarters : Int) : Int :=
  years * 4 + quarters - 1

/-- Embeds `split_normalized_quarters`:
`years = normalized_quarters // 4`, `quarters = normalized_quarters % 4`,
returning `(years, quarters + 1)`.  Python `//`/`%` are floor division and
floor modulus, i.e. `Int.fdiv`/`Int.fmod`. -/
def split_normalized_quarters (normalized_quarters : Int) : Int × Int :=
  (Int.fdiv normalized_quarters 4, Int.fmod normalized_quarters 4 + 1)

/-! ## Input schema and ingestion filter

Metadata column names are imported by the source from
`zipline.pipeline.common`; their string values are fixed global constants
(the spec's five metadata columns: asset id, event date, knowledge
timestamp, fiscal year, fiscal quarter). -/

def TS_FIELD_NAME : String := "timestamp"

def SID_FIELD_NAME : String := "sid"

def EVENT_DATE_FIELD_NAME : String := "event_date"

def FISCAL_QUARTER_FIELD_NAME : String := "fiscal_quarter"

def FISCAL_YEAR_FIELD_NAME : String := "fiscal_year"

/-- Embeds `required_estimates_fields(columns)`: the five metadata columns
united with the values of the `columns` name mapping (Python returns a set;
emptiness and membership of the difference are all the loader uses, so a
list with possible duplicates is an adequate carrier). -/
def required_estimates_fields (columns : List (String × String)) : List String :=
  [TS_FIELD_NAME, SID_FIELD_NAME, EVENT_DATE_FIELD_NAME,
    FISCAL_QUARTER_FIELD_NAME, FISCAL_YEAR_FIELD_NAME] ++ columns.map Prod.snd

/-- The payload of the `ValueError` raised by `validate_column_specs`: the
message is formatted from the (sorted) missing, received and required column
sets; we carry the three lists themselves. -/
structure SchemaError where
  missing : List String
  received : List String
  required : List String
deriving DecidableEq, Repr

/-- Embeds `validate_column_specs(events, columns)`: computes
`missing = required - received` and raises iff `missing` is non-empty,
reporting missing, received and required. -/
def validate_column_specs (eventColumns : List String)
    (columns : List (String × String)) : Option SchemaError :=
  let required := required_estimates_fields columns
  let missing := required.filter (fun c => !(eventColumns.contains c))
  if missing = [] then none
  else some ⟨missing, eventColumns, required⟩

/-- One raw row of the input estimates table.  Nullable cells are `Option`;
dates and timestamps are `Nat` ticks, fiscal year/quarter are `Int`. -/
structure RawEvent where
  sid : Nat
  event_date : Option Nat
  timestamp : Option Nat
  fiscal_year : Option Int
  fiscal_quarter : Option Int
deriving DecidableEq, Repr

/-- Embeds the row filter of `QuarterEstimatesLoader.__init__` (the
`estimates[... notnull & ... notnull & ... notnull]` selection): keep the
rows whose `event_date`, `fiscal_quarter` and `fiscal_year` are non-null. -/
def filterEstimates (rows : List RawEvent) : List RawEvent :=
  rows.filter (fun r =>
    r.event_date.isSome && r.fiscal_quarter.isSome && r.fiscal_year.isSome)

/-- The input estimates table: its column-name list (checked by
`validate_column_specs`) and its rows. -/
structure EstimatesTable where
  cols : List String
  rows : List RawEvent
deriving DecidableEq, Repr

/-- The state built by `QuarterEstimatesLoader.__init__`: the filtered rows,
each paired with its computed `normalized_quarters` cell (null-propagating,
as the elementwise pandas arithmetic is), plus the name map. -/
structure Loader where
  estimates : List (RawEvent × Option Int)
  name_map : List (String × String)
deriving DecidableEq, Repr

/-- Embeds `QuarterEstimatesLoader.__init__`: validate the column spec
(raising a `SchemaError` if a required column is missing), then filter out
rows with null `event_date`/`fiscal_quarter`/`fiscal_year` and add the
`normalized_quarters` column. -/
def loaderInit (estimates : EstimatesTable)
    (name_map : List (String × String)) : Except SchemaError Loader :=
  match validate_column_specs estimates.cols name_map with
  | some e => .error e
  | none =>
      .ok ⟨(filterEstimates estimates.rows).map (fun r =>
              (r, r.fiscal_year.bind (fun y =>
                    r.fiscal_quarter.map (fun q => normalize_quarters y q)))),
            name_map⟩

/-- A concrete row whose knowledge timestamp is null while the other three
required non-metric fields are non-null. -/
def nullTsRow : RawEvent :=
  { sid := 0, event_date := some 1, timestamp := none,
    fiscal_year := some 2020, fiscal_quarter := some 1 }

/-! ## load_adjusted_array validation prefix -/

/-- Embeds `INVALID_NUM_QTRS_MESSAGE` together with the `%` formatting in
`load_adjusted_array`: the offending group keys are rendered comma-joined
into the message. -/
def invalid_num_qtrs_message (offending : List Int) : String :=
  "Passed invalid number of quarters " ++
    String.intercalate "," (offending.map toString) ++
    "; must pass a number of quarters >= 0"

/-- A requested pipeline column: its name and its dataset's `num_quarters`
attribute (the quarter offset). -/
structure Column where
  name : String
  num_quarters : Int
deriving DecidableEq, Repr

/-- Key insertion for an insertion-ordered dictionary key list. -/
def insertKey (ks : List Int) (k : Int) : List Int :=
  if k ∈ ks then ks else ks ++ [k]

/-- The key list, in first-occurrence order, of the dict built by
`toolz.groupby(lambda col: ..., ...)`. -/
def groupKeys (l : List Int) : List Int := l.foldl insertKey []

/-- Embeds the validation prefix of
`QuarterEstimatesLoader.load_adjusted_array` (lines 334-355): group the
requested columns by their `num_quarters` and raise a `ValueError` naming the
negative keys if any group key is negative.  The per-group computation that
follows — the only part of the method that reads the loader's estimates
table — is abstracted as the argument `compute`, so theorems can quantify
over it. -/
def load_adjusted_array {α : Type} (compute : Loader → List Column → α)
    (loader : Loader) (columns : List Column) : Except String α :=
  let groups := groupKeys (columns.map Column.num_quarters)
  if groups.any (fun q => decide (q < 0)) then
    .error (invalid_num_qtrs_message (groups.filter (fun q => decide (q < 0))))
  else
    .ok (compute loader columns)

/-! ## Per-quarter timeline (last-known resolver) -/

/-- A validated estimate event (a row of the working estimates table) as fed
into the alignment computation: all alignment fields non-null, with its
normalized quarter and its named metric values. -/
structure EstimateEvent where
  sid : Nat
  event_date : Nat
  timestamp : Nat
  normalized_qtr : Int
  metrics : List (String × Int)
deriving DecidableEq, Repr

/-- Lookup of a metric value by column name. -/
def lookupMetric (metric : String) : List (String × Int) → Option Int
  | [] => none
  | p :: ps => if p.1 = metric then some p.2 else lookupMetric metric ps

/-- Modelled from the spec: `last_in_date_group` and `ffill_across_cols`
(from `zipline.pipeline.loaders.utils`, called at lines 357-366 of the
source) are not among the sources.  Per spec §3/§4.2, the event backing the
per-quarter timeline at date `d` for an (asset, quarter) group is the event
of that group with the greatest knowledge timestamp `≤ d`, ties broken by
the last row in input order, and there is none before the first known
revision. -/
def latestKnown (events : List EstimateEvent) (d : Nat) (sid : Nat)
    (qtr : Int) : Option EstimateEvent :=
  ((events.filter (fun e => decide (e.timestamp ≤ d))).filter
      (fun e => decide (e.sid = sid) && decide (e.normalized_qtr = qtr))).foldl
    (fun acc e =>
      match acc with
      | none => some e
      | some b => if b.timestamp ≤ e.timestamp then some e else some b)
    none

/-- Modelled from the spec: the forward-filled PerQuarterTimeline of spec §3
— the value at date `d` for (asset, quarter, metric) is the metric value of
the most recent event known at `d` in that (asset, quarter) group, null
before the first known revision. -/
def perQuarterTimeline (events : List EstimateEvent) (sid : Nat) (qtr : Int)
    (metric : String) (d : Nat) : Option Int :=
  (latestKnown events d sid qtr).bind (fun e => lookupMetric metric e.metrics)

/-- A concrete event known at time 3 for asset 1, quarter 7. -/
def knownEvent : EstimateEvent :=
  { sid := 1, event_date := 10, timestamp := 3, normalized_qtr := 7,
    metrics := [("estimate", 5)] }

/-- A concrete revision of the same quarter that only becomes known at time
9, i.e. strictly after the query date 5 used in the C1 witness. -/
def futureEvent : EstimateEvent :=
  { sid := 1, event_date := 20, timestamp := 9, normalized_qtr := 7,
    metrics := [("estimate", 9)] }

/-! ## Crossover search and adjustment compilation -/

/-- The two loader strategies, `NextQuartersEstimatesLoader` and
`PreviousQuartersEstimatesLoader` (the closed set of subclasses of
`QuarterEstimatesLoader` dispatched on by `isinstance`). -/
inductive Strategy
  | nextQtrs
  | previousQtrs
deriving DecidableEq, Repr

/-- A `numpy.searchsorted` side. -/
inductive Side
  | left
  | right
deriving DecidableEq, Repr

/-- Embeds `numpy.searchsorted` on the sorted date grid: with side `left`
the result is the number of grid values `< v` (insertion point before equal
values), with side `right` the number of grid values `≤ v` (insertion point
after equal values); on a sorted list both are `takeWhile` lengths. -/
def searchsorted (dates : List Nat) (v : Nat) (side : Side) : Nat :=
  match side with
  | .left => (dates.takeWhile (fun x => decide (x < v))).length
  | .right => (dates.takeWhile (fun x => decide (x ≤ v))).length

/-- Embeds the side selection of `get_adjustments` (lines 242-245):
`side='left'` iff the loader is a `PreviousQuartersEstimatesLoader`,
otherwise `'right'`. -/
def searchSide : Strategy → Side
  | .previousQtrs => .left
  | .nextQtrs => .right

/-- Embeds `searchsorted` applied to a nullable event date: per the
source's own comment (lines 278-281), a `NaT` event date produces index 0. -/
def searchsortedOpt (dates : List Nat) (v : Option Nat) (side : Side) : Nat :=
  match v with
  | none => 0
  | some d => searchsorted dates d side

/-- A rectangular 1D-array overwrite (`Float641DArrayOverwrite` /
`Datetime641DArrayOverwrite`, constructed positionally as
`overwrite(first_row, last_row, first_col, last_col, values)`).  Cell values
are `Option Int`, with `none` standing for the column's typed missing value
(NaN for float columns, NaT for datetime columns). -/
structure Overwrite where
  first_row : Nat
  last_row : Nat
  first_col : Nat
  last_col : Nat
  values : List (Option Int)
deriving DecidableEq, Repr

/-- Embeds `QuarterEstimatesLoader.overwrite_with_null`: one overwrite of
rows `0 .. next_qtr_start_idx - 1` of the asset's own column filled with the
column's missing value; `len(last_per_qtr.index[:next_qtr_start_idx])` is
`min next_qtr_start_idx numDates` since `last_per_qtr` is indexed by the
date grid. -/
def overwrite_with_null (next_qtr_start_idx : Nat) (numDates : Nat)
    (sid_idx : Nat) : List Overwrite :=
  [{ first_row := 0, last_row := next_qtr_start_idx - 1,
     first_col := sid_idx, last_col := sid_idx,
     values := List.replicate (min next_qtr_start_idx numDates) none }]

/-- Embeds `create_overwrite_for_estimate` of the two strategy subclasses:
`NextQuartersEstimatesLoader` overwrites rows `0 .. next_qtr_start_idx - 1`
with the requested quarter's forward-filled timeline
(`last_per_qtr[column_name, requested_quarter, sid][0:next_qtr_start_idx]`,
given here as `lastPerQtr : quarter → timeline` for the fixed column and
sid), while `PreviousQuartersEstimatesLoader` delegates to
`overwrite_with_null`. -/
def create_overwrite_for_estimate (strategy : Strategy)
    (lastPerQtr : Int → List (Option Int)) (next_qtr_start_idx : Nat)
    (numDates : Nat) (requested_quarter : Int) (sid_idx : Nat) :
    List Overwrite :=
  match strategy with
  | .nextQtrs =>
      [{ first_row := 0, last_row := next_qtr_start_idx - 1,
         first_col := sid_idx, last_col := sid_idx,
         values := (lastPerQtr requested_quarter).take next_qtr_start_idx }]
  | .previousQtrs =>
      overwrite_with_null next_qtr_start_idx numDates sid_idx

/-- Embeds `QuarterEstimatesLoader.create_overwrite_for_quarter`: when the
crossover row index is 0 or `≥ len(dates)` the Python method falls through
and returns `None` (here `none`); otherwise the requested quarter at the
crossover row is read (`requestedQtr`, the per-sid
`requested_qtr_data[SHIFTED_NORMALIZED_QTRS]` column) and, if it has
estimates for this sid, the strategy's `create_overwrite_for_estimate` is
used, else `overwrite_with_null`.  A null requested quarter (NaN) is never
`in` the quarters-with-estimates array, since NaN compares unequal to
everything. -/
def create_overwrite_for_quarter (strategy : Strategy)
    (next_qtr_start_idx : Nat) (dates : List Nat)
    (requestedQtr : Nat → Option Int) (qtrs_with_estimates : List Int)
    (lastPerQtr : Int → List (Option Int)) (sid_idx : Nat) :
    Option (List Overwrite) :=
  if 0 < next_qtr_start_idx ∧ next_qtr_start_idx < dates.length then
    match requestedQtr next_qtr_start_idx with
    | some requested_quarter =>
        if requested_quarter ∈ qtrs_with_estimates then
          some (create_overwrite_for_estimate strategy lastPerQtr
            next_qtr_start_idx dates.length requested_quarter sid_idx)
        else
          some (overwrite_with_null next_qtr_start_idx dates.length sid_idx)
    | none =>
        some (overwrite_with_null next_qtr_start_idx dates.length sid_idx)
  else none

/-- One row of `zero_qtr_data` restricted to one sid, in date order: the
zero quarter (`NORMALIZED_QUARTERS`, nullable) and the event date of the
backing row (nullable, NaT). -/
structure ZeroRow where
  normalized_qtr : Option Int
  event_date : Option Nat
deriving DecidableEq, Repr

/-- Elementwise pandas `!=` on nullable numeric cells: any comparison
involving NaN is unequal (`NaN != NaN` is true). -/
def pdNe : Option Int → Option Int → Bool
  | some a, some b => decide (a ≠ b)
  | _, _ => true

/-- Embeds the `qtr_shifts` computation of `get_adjustments` (lines
217-227): keep the rows whose zero quarter differs from the previous row's
under pandas `!=` (the `shift(1)` hole at the first row, a null, always
differs), then drop the rows whose own zero quarter is null. -/
def qtrShifts (rows : List ZeroRow) : List ZeroRow :=
  ((rows.zip (none :: rows.map ZeroRow.normalized_qtr)).filter
      (fun p => pdNe p.1.normalized_qtr p.2 && p.1.normalized_qtr.isSome)).map
    Prod.fst

/-- The inputs of one iteration of the sid loop of `get_adjustments`: the
sid's column position, its `zero_qtr_sid_data` rows in date order, its
`qtrs_with_estimates_for_sid`, its requested-quarter column
(`requested_qtr_data[SHIFTED_NORMALIZED_QTRS][sid]`, indexed by date row)
and its per-quarter forward-filled timeline for the processed column
(`last_per_qtr[column_name, ·, sid]`). -/
structure SidData where
  sid_idx : Nat
  zero_qtr_rows : List ZeroRow
  qtrs_with_estimates : List Int
  requestedQtr : Nat → Option Int
  lastPerQtr : Int → List (Option Int)

/-- The `adjustments` dict built by `get_adjustments`: an insertion-ordered
map from row index to whatever `adjustments[idx] = ...` stored there, which
is `none` when `create_overwrite_for_quarter` returned `None`. -/
abbrev AdjDict : Type := List (Nat × Option (List Overwrite))

/-- Python dict assignment `m[k] = v`: replace the value at an existing key
in place, else append the new binding. -/
def dictInsert (m : AdjDict) (k : Nat) (v : Option (List Overwrite)) :
    AdjDict :=
  if m.any (fun p => decide (p.1 = k)) then
    m.map (fun p => if p.1 = k then (k, v) else p)
  else m ++ [(k, v)]

/-- Embeds the `row_indexer` loop of `get_adjustments` for one sid (lines
233-258): for every quarter shift, locate the crossover row with the
strategy's search side applied to the shift row's event date and assign
`adjustments[next_qtr_start_idx] = create_overwrite_for_quarter(...)`. -/
def get_adjustments_for_sid (strategy : Strategy) (dates : List Nat)
    (sd : SidData) (adjustments : AdjDict) : AdjDict :=
  (qtrShifts sd.zero_qtr_rows).foldl
    (fun acc row =>
      dictInsert acc
        (searchsortedOpt dates row.event_date (searchSide strategy))
        (create_overwrite_for_quarter strategy
          (searchsortedOpt dates row.event_date (searchSide strategy)) dates
          sd.requestedQtr sd.qtrs_with_estimates sd.lastPerQtr sd.sid_idx))
    adjustments

/-- Embeds the sid loop of `get_adjustments` (lines 201-258): a single
`adjustments` dict shared across all sids of the asset universe; the final
dict is passed unchanged (`dict(adjustments)`) to the `AdjustedArray`
constructed at lines 260-265. -/
def get_adjustments (strategy : Strategy) (dates : List Nat)
    (sids : List SidData) : AdjDict :=
  sids.foldl (fun acc sd => get_adjustments_for_sid strategy dates sd acc) []

/-! ## Concrete inputs for the adjustment-compilation theorems -/

/-- C2 witness timeline: quarter 5 has a forward-filled timeline, every
other quarter is all-null. -/
def c2Timeline : Int → List (Option Int) :=
  fun q => if q = 5 then [some 100, some 101, some 102] else [none, none, none]

/-- First asset of the C3 failing input (column 0): its single quarter
shift has event date 10, which lands at crossover row 1 of the grid
`[10, 20, 30]` under the right-side search. -/
def sidA : SidData :=
  { sid_idx := 0, zero_qtr_rows := [⟨some 4, some 10⟩],
    qtrs_with_estimates := [5],
    requestedQtr := fun _ => some 5,
    lastPerQtr := fun _ => [some 100, some 101, some 102] }

/-- Second asset of the C3 failing input (column 1): an unrelated quarter
shift with the same event date 10, hence the same crossover row 1. -/
def sidB : SidData :=
  { sid_idx := 1, zero_qtr_rows := [⟨some 7, some 10⟩],
    qtrs_with_estimates := [8],
    requestedQtr := fun _ => some 8,
    lastPerQtr := fun _ => [some 200, some 201, some 202] }

/-- C4 failing input for the Next strategy: the shift's event date 20
right-searches to index 2 = grid length on the grid `[10, 20]`. -/
def sidLate : SidData :=
  { sid_idx := 0, zero_qtr_rows := [⟨some 4, some 20⟩],
    qtrs_with_estimates := [5],
    requestedQtr := fun _ => some 5,
    lastPerQtr := fun _ => [some 100, some 101] }

/-- C4 failing input for the Previous strategy: the shift's event date 5
left-searches to index 0 on the grid `[10, 20]`. -/
def sidEarly : SidData :=
  { sid_idx := 0, zero_qtr_rows := [⟨some 4, some 5⟩],
    qtrs_with_estimates := [5],
    requestedQtr := fun _ => some 5,
    lastPerQtr := fun _ => [some 100, some 101] }

/-! ## Theorems -/

/-- `validate_column_specs` accepts iff every required column is received. -/
theorem validate_none_iff (cols : List String) (nm : List (String × String)) :
    validate_column_specs cols nm = none ↔
      ∀ c ∈ required_estimates_fields nm, c ∈ cols := by
  unfold validate_column_specs
  dsimp only
  split_ifs with h
  · simp only [List.filter_eq_nil_iff] at h
    constructor
    · intro _ c hc
      simpa using h c hc
    · intro _
      rfl
  · constructor
    · intro hc
      cases hc
    · intro hall
      exfalso
      apply h
      rw [List.filter_eq_nil_iff]
      intro c hc
      simpa using hall c hc

/-- On rejection, `validate_column_specs` reports the received and required
column sets and exactly the required-but-absent columns as missing. -/
theorem validate_error_spec (cols : List String) (nm : List (String × String))
    (e : SchemaError) (he : validate_column_specs cols nm = some e) :
    e.received = cols ∧ e.required = required_estimates_fields nm ∧
      ∀ c, c ∈ e.missing ↔
        c ∈ required_estimates_fields nm ∧ c ∉ cols := by
  unfold validate_column_specs at he
  dsimp only at he
  split_ifs at he with h
  cases he
  refine ⟨rfl, rfl, fun c => ?_⟩
  rw [List.mem_filter]
  simp

/-- `loaderInit` fails exactly when `validate_column_specs` rejects. -/
theorem loaderInit_error_iff (t : EstimatesTable)
    (nm : List (String × String)) (e : SchemaError) :
    loaderInit t nm = .error e ↔ validate_column_specs t.cols nm = some e := by
  unfold loaderInit
  cases h : validate_column_specs t.cols nm <;> simp

/-- `loaderInit` succeeds exactly when `validate_column_specs` accepts. -/
theorem loaderInit_ok_iff (t : EstimatesTable) (nm : List (String × String)) :
    (∃ l, loaderInit t nm = .ok l) ↔
      validate_column_specs t.cols nm = none := by
  unfold loaderInit
  cases h : validate_column_specs t.cols nm <;> simp

/-- C1: no look-ahead — the per-quarter (forward-filled) timeline value at a
date `d` never depends on events whose knowledge timestamp is strictly
greater than `d`: two event tables that agree on all events with knowledge
timestamp `≤ d` yield the same timeline value at `(d, asset, quarter)` for
every quarter and every metric. -/
theorem perQuarterTimeline_no_lookahead (events₁ events₂ : List EstimateEvent)
    (d : Nat)
    (h : events₁.filter (fun e => decide (e.timestamp ≤ d)) =
      events₂.filter (fun e => decide (e.timestamp ≤ d)))
    (sid : Nat) (qtr : Int) (metric : String) :
    perQuarterTimeline events₁ sid qtr metric d =
      perQuarterTimeline events₂ sid qtr metric d := by
  unfold perQuarterTimeline latestKnown
  rw [h]

/-- Witness for C1: adding an event that becomes known only at time 9 does
not change the timeline at date 5. -/
theorem perQuarterTimeline_no_lookahead_witness :
    perQuarterTimeline [knownEvent, futureEvent] 1 7 "estimate" 5 =
      perQuarterTimeline [knownEvent] 1 7 "estimate" 5 :=
  perQuarterTimeline_no_lookahead [knownEvent, futureEvent] [knownEvent] 5
    (by decide) 1 7 "estimate"

/-- Membership in `insertKey`. -/
theorem mem_insertKey (ks : List Int) (k x : Int) :
    x ∈ insertKey ks k ↔ x ∈ ks ∨ x = k := by
  unfold insertKey
  split_ifs with h
  · constructor
    · exact Or.inl
    · rintro (hx | rfl)
      · exact hx
      · exact h
  · simp

theorem mem_groupKeys_aux (l : List Int) (acc : List Int) (x : Int) :
    x ∈ l.foldl insertKey acc ↔ x ∈ acc ∨ x ∈ l := by
  induction l generalizing acc with
  | nil => simp
  | cons a t ih =>
      rw [List.foldl_cons, ih, mem_insertKey]
      simp only [List.mem_cons]
      tauto

/-- The group keys are exactly the values occurring in the list. -/
theorem mem_groupKeys (l : List Int) (x : Int) : x ∈ groupKeys l ↔ x ∈ l := by
  unfold groupKeys
  rw [mem_groupKeys_aux]
  simp

/-- C7: when some requested column's `num_quarters` is negative,
`load_adjusted_array` fails with the validation error naming the offending
value(s) — the named values are exactly the negative `num_quarters` occurring
among the requested columns — and it does so before any computation: the
result is the same error for every downstream computation and every estimates
table, so no partial output is produced. -/
theorem load_adjusted_array_negative {α : Type}
    (compute₁ compute₂ : Loader → List Column → α) (loader₁ loader₂ : Loader)
    (columns : List Column) (c₀ : Column) (hc : c₀ ∈ columns)
    (hneg : c₀.num_quarters < 0) :
    ∃ negs : List Int,
      negs ≠ [] ∧
        c₀.num_quarters ∈ negs ∧
        (∀ q ∈ negs, q < 0 ∧ ∃ c ∈ columns, c.num_quarters = q) ∧
        (∀ c ∈ columns, c.num_quarters < 0 → c.num_quarters ∈ negs) ∧
        load_adjusted_array compute₁ loader₁ columns =
          .error (invalid_num_qtrs_message negs) ∧
        load_adjusted_array compute₂ loader₂ columns =
          .error (invalid_num_qtrs_message negs) := by
  have hmem : c₀.num_quarters ∈ groupKeys (columns.map Column.num_quarters) := by
    rw [mem_groupKeys]
    exact List.mem_map_of_mem _ hc
  have hany : (groupKeys (columns.map Column.num_quarters)).any
      (fun q => decide (q < 0)) = true := by
    rw [List.any_eq_true]
    exact ⟨c₀.num_quarters, hmem, by simpa using hneg⟩
  refine ⟨(groupKeys (columns.map Column.num_quarters)).filter
      (fun q => decide (q < 0)), ?_, ?_, ?_, ?_, ?_, ?_⟩
  · exact List.ne_nil_of_mem (List.mem_filter.mpr ⟨hmem, by simpa using hneg⟩)
  · exact List.mem_filter.mpr ⟨hmem, by simpa using hneg⟩
  · intro q hq
    rw [List.mem_filter, mem_groupKeys, List.mem_map] at hq
    obtain ⟨⟨c, hcmem, hcq⟩, hq0⟩ := hq
    exact ⟨by simpa using hq0, c, hcmem, hcq⟩
  · intro c hcmem hc0
    refine List.mem_filter.mpr ⟨?_, by simpa using hc0⟩
    rw [mem_groupKeys]
    exact List.mem_map_of_mem _ hcmem
  · unfold load_adjusted_array
    dsimp only
    rw [if_pos hany]
  · unfold load_adjusted_array
    dsimp only
    rw [if_pos hany]

/-- Witness for C7: a concrete request with `num_quarters = -1` fails with
the message naming `-1`, independently of the estimates table and the
downstream computation. -/
theorem load_adjusted_array_negative_witness :
    ∃ negs : List Int,
      negs ≠ [] ∧
        Column.num_quarters ⟨"e", -1⟩ ∈ negs ∧
        (∀ q ∈ negs, q < 0 ∧
          ∃ c ∈ [(⟨"e", -1⟩ : Column)], c.num_quarters = q) ∧
        (∀ c ∈ [(⟨"e", -1⟩ : Column)],
          c.num_quarters < 0 → c.num_quarters ∈ negs) ∧
        load_adjusted_array (fun _ _ => (0 : Nat)) ⟨[], []⟩ [⟨"e", -1⟩] =
          .error (invalid_num_qtrs_message negs) ∧
        load_adjusted_array (fun _ _ => (1 : Nat)) ⟨[(nullTsRow, none)], []⟩
            [⟨"e", -1⟩] =
          .error (invalid_num_qtrs_message negs) :=
  load_adjusted_array_negative (fun _ _ => (0 : Nat)) (fun _ _ => (1 : Nat))
    ⟨[], []⟩ ⟨[(nullTsRow, none)], []⟩ [⟨"e", -1⟩] ⟨"e", -1⟩
    (List.mem_singleton.mpr rfl) (by decide)

/-- C9: decoding the normalized-quarter encoding returns the original pair
for every integer year and every quarter in {1,2,3,4}. -/
theorem split_normalize_roundtrip (y q : Int) (h1 : 1 ≤ q) (h4 : q ≤ 4) :
    split_normalized_quarters (normalize_quarters y q) = (y, q) := by
  unfold split_normalized_quarters normalize_quarters
  rw [Int.fdiv_eq_ediv _ (by norm_num), Int.fmod_eq_emod _ (by norm_num)]
  simp only [Prod.mk.injEq]
  omega

/-- Witness for C9 at a concrete (negative) year and a concrete quarter. -/
theorem split_normalize_roundtrip_witness :
    split_normalized_quarters (normalize_quarters (-7) 3) = (-7, 3) :=
  split_normalize_roundtrip (-7) 3 (by decide) (by decide)

/-- C10: the codec is a right inverse in the other direction on every integer
(including negative ones), and the decoded quarter always lies in {1,2,3,4}. -/
theorem normalize_split_roundtrip (n : Int) :
    normalize_quarters (split_normalized_quarters n).1
        (split_normalized_quarters n).2 = n ∧
      1 ≤ (split_normalized_quarters n).2 ∧ (split_normalized_quarters n).2 ≤ 4 := by
  unfold split_normalized_quarters normalize_quarters
  rw [Int.fdiv_eq_ediv _ (by norm_num), Int.fmod_eq_emod _ (by norm_num)]
  refine ⟨by omega, by omega, by omega⟩

/-- C6 counterexample: a row whose knowledge timestamp is null but whose
event date, fiscal year and fiscal quarter are non-null is NOT dropped by the
ingestion filter, contradicting the claim that a null in any of the four
required non-metric columns causes the row to be dropped. -/
theorem filterEstimates_keeps_null_ts :
    ¬ (filterEstimates [nullTsRow] =
        [nullTsRow].filter (fun r =>
          r.event_date.isSome && r.timestamp.isSome &&
            r.fiscal_year.isSome && r.fiscal_quarter.isSome)) := by
  decide

/-- C6 (amended): a row is kept by the ingestion filter iff it occurs in the
input and its event date, fiscal quarter and fiscal year are all non-null;
rows with a null in any of those three columns are dropped (the knowledge
timestamp is not consulted), and dropping is not an error. -/
theorem filterEstimates_mem (rows : List RawEvent) (r : RawEvent) :
    r ∈ filterEstimates rows ↔
      r ∈ rows ∧ r.event_date.isSome ∧ r.fiscal_quarter.isSome ∧
        r.fiscal_year.isSome := by
  unfold filterEstimates
  rw [List.mem_filter]
  simp [and_assoc]

/-- C8: constructing the loader succeeds iff every required column (the five
metadata columns and every metric column named in the name map) is present
in the input table; on failure the error lists exactly the missing columns
together with the received and expected column sets. -/
theorem loaderInit_schema (estimates : EstimatesTable)
    (name_map : List (String × String)) :
    ((∃ l, loaderInit estimates name_map = .ok l) ↔
        ∀ c ∈ required_estimates_fields name_map, c ∈ estimates.cols) ∧
      ∀ e, loaderInit estimates name_map = .error e →
        e.received = estimates.cols ∧
          e.required = required_estimates_fields name_map ∧
          ∀ c, c ∈ e.missing ↔
            c ∈ required_estimates_fields name_map ∧ c ∉ estimates.cols := by
  constructor
  · rw [loaderInit_ok_iff, validate_none_iff]
  · intro e he
    rw [loaderInit_error_iff] at he
    exact validate_error_spec _ _ _ he

/-- Witness for C8: the schema theorem instantiated at a concrete table that
is missing the fiscal-year column and one metric column. -/
theorem loaderInit_schema_witness :
    ((∃ l, loaderInit ⟨["timestamp", "sid", "event_date", "fiscal_quarter"],
          []⟩ [("e", "estimate")] = .ok l) ↔
        ∀ c ∈ required_estimates_fields [("e", "estimate")],
          c ∈ ["timestamp", "sid", "event_date", "fiscal_quarter"]) ∧
      ∀ e, loaderInit ⟨["timestamp", "sid", "event_date", "fiscal_quarter"],
          []⟩ [("e", "estimate")] = .error e →
        e.received = ["timestamp", "sid", "event_date", "fiscal_quarter"] ∧
          e.required = required_estimates_fields [("e", "estimate")] ∧
          ∀ c, c ∈ e.missing ↔
            c ∈ required_estimates_fields [("e", "estimate")] ∧
              c ∉ ["timestamp", "sid", "event_date", "fiscal_quarter"] :=
  loaderInit_schema _ _

/-- On a strictly increasing list, the prefix of values `< v` ends exactly
at the position of `v`. -/
theorem takeWhile_lt_length_of_sorted (dates : List Nat) (i v : Nat)
    (hs : dates.Pairwise (fun a b => a < b)) (hv : dates.get? i = some v) :
    (dates.takeWhile (fun x => decide (x < v))).length = i := by
  induction dates generalizing i with
  | nil => simp at hv
  | cons a t ih =>
      rw [List.pairwise_cons] at hs
      cases i with
      | zero =>
          rw [List.get?_cons_zero, Option.some.injEq] at hv
          subst hv
          rw [List.takeWhile_cons, if_neg (by simp)]
          rfl
      | succ i =>
          rw [List.get?_cons_succ] at hv
          have hav : a < v := hs.1 v (List.get?_mem hv)
          rw [List.takeWhile_cons, if_pos (decide_eq_true hav),
            List.length_cons, ih i hs.2 hv]

/-- On a strictly increasing list, the prefix of values `≤ v` ends exactly
one past the position of `v`. -/
theorem takeWhile_le_length_of_sorted (dates : List Nat) (i v : Nat)
    (hs : dates.Pairwise (fun a b => a < b)) (hv : dates.get? i = some v) :
    (dates.takeWhile (fun x => decide (x ≤ v))).length = i + 1 := by
  induction dates generalizing i with
  | nil => simp at hv
  | cons a t ih =>
      rw [List.pairwise_cons] at hs
      cases i with
      | zero =>
          rw [List.get?_cons_zero, Option.some.injEq] at hv
          subst hv
          have ht : t.takeWhile (fun x => decide (x ≤ a)) = [] := by
            cases t with
            | nil => rfl
            | cons b t' =>
                have hab : a < b := hs.1 b (List.mem_cons_self b t')
                rw [List.takeWhile_cons,
                  if_neg (by simpa using Nat.not_le.mpr hab)]
          rw [List.takeWhile_cons, if_pos (decide_eq_true (Nat.le_refl a)), ht]
          rfl
      | succ i =>
          rw [List.get?_cons_succ] at hv
          have hav : a < v := hs.1 v (List.get?_mem hv)
          rw [List.takeWhile_cons, if_pos (decide_eq_true (Nat.le_of_lt hav)),
            List.length_cons, ih i hs.2 hv]

/-- C5: on the strictly increasing simulation date grid, for an event dated
exactly on the grid date at position `i`, the Next strategy's search side
(`right`, strictly-greater) locates the new regime at the NEXT grid row
`i + 1`, while the Previous strategy's search side (`left`,
greater-or-equal) locates it at that SAME grid row `i`. -/
theorem crossover_search_sides (dates : List Nat) (i v : Nat)
    (hs : dates.Pairwise (fun a b => a < b)) (hv : dates.get? i = some v) :
    searchsorted dates v (searchSide .nextQtrs) = i + 1 ∧
      searchsorted dates v (searchSide .previousQtrs) = i := by
  constructor
  · exact takeWhile_le_length_of_sorted dates i v hs hv
  · exact takeWhile_lt_length_of_sorted dates i v hs hv

/-- Witness for C5 on the concrete grid `[10, 20, 30]` with the event dated
exactly on the grid date at position 1. -/
theorem crossover_search_sides_witness :
    searchsorted [10, 20, 30] 20 (searchSide .nextQtrs) = 2 ∧
      searchsorted [10, 20, 30] 20 (searchSide .previousQtrs) = 1 :=
  crossover_search_sides [10, 20, 30] 1 20 (by decide) (by decide)

/-- C2: for every retained crossover (row index strictly between 0 and the
grid length), the Previous strategy produces the missing-value overwrite of
rows `0 .. idx - 1` regardless of whether the requested quarter has
estimates, while the Next strategy produces an overwrite filled with the
requested quarter's forward-filled timeline values (truncated at the
crossover row) whenever an estimate for that quarter exists for the asset. -/
theorem create_overwrite_strategy_asymmetry (next_qtr_start_idx : Nat)
    (dates : List Nat) (requestedQtr : Nat → Option Int)
    (qtrs_with_estimates : List Int) (lastPerQtr : Int → List (Option Int))
    (sid_idx : Nat) (h0 : 0 < next_qtr_start_idx)
    (hlen : next_qtr_start_idx < dates.length) :
    create_overwrite_for_quarter .previousQtrs next_qtr_start_idx dates
        requestedQtr qtrs_with_estimates lastPerQtr sid_idx =
      some [{ first_row := 0, last_row := next_qtr_start_idx - 1,
              first_col := sid_idx, last_col := sid_idx,
              values :=
                List.replicate (min next_qtr_start_idx dates.length) none }] ∧
      ∀ q, requestedQtr next_qtr_start_idx = some q →
        q ∈ qtrs_with_estimates →
        create_overwrite_for_quarter .nextQtrs next_qtr_start_idx dates
            requestedQtr qtrs_with_estimates lastPerQtr sid_idx =
          some [{ first_row := 0, last_row := next_qtr_start_idx - 1,
                  first_col := sid_idx, last_col := sid_idx,
                  values := (lastPerQtr q).take next_qtr_start_idx }] := by
  constructor
  · unfold create_overwrite_for_quarter
    rw [if_pos ⟨h0, hlen⟩]
    cases hq : requestedQtr next_qtr_start_idx with
    | none => rfl
    | some q =>
        dsimp only
        by_cases hmem : q ∈ qtrs_with_estimates
        · rw [if_pos hmem]
          rfl
        · rw [if_neg hmem]
          rfl
  · intro q hq hmem
    unfold create_overwrite_for_quarter
    rw [if_pos ⟨h0, hlen⟩, hq]
    dsimp only
    rw [if_pos hmem]
    rfl

/-- Witness for C2 at crossover row 1 on the grid `[10, 20, 30]` with
requested quarter 5 backed by estimates. -/
theorem create_overwrite_strategy_asymmetry_witness :
    create_overwrite_for_quarter .previousQtrs 1 [10, 20, 30]
        (fun _ => some 5) [5] c2Timeline 0 =
      some [{ first_row := 0, last_row := 0, first_col := 0, last_col := 0,
              values := List.replicate (min 1 (List.length [10, 20, 30]))
                none }] ∧
      ∀ q, (fun _ : Nat => some (5 : Int)) 1 = some q →
        q ∈ [(5 : Int)] →
        create_overwrite_for_quarter .nextQtrs 1 [10, 20, 30]
            (fun _ => some 5) [5] c2Timeline 0 =
          some [{ first_row := 0, last_row := 0, first_col := 0,
                  last_col := 0, values := (c2Timeline q).take 1 }] :=
  create_overwrite_strategy_asymmetry 1 [10, 20, 30] (fun _ => some 5) [5]
    c2Timeline 0 (by decide) (by decide)

/-- C3 failing input, evaluated: processed alone, each of the two assets
contributes its own patch at row index 1; processed together in the shared
`adjustments` dict, only the second asset's patch survives at key 1 — the
first asset's patch has been replaced by the plain dict assignment at the
same row index. -/
theorem get_adjustments_clobbers_same_index :
    get_adjustments .nextQtrs [10, 20, 30] [sidA] =
        [(1, some [{ first_row := 0, last_row := 0, first_col := 0,
                     last_col := 0, values := [some 100] }])] ∧
      get_adjustments .nextQtrs [10, 20, 30] [sidB] =
        [(1, some [{ first_row := 0, last_row := 0, first_col := 1,
                     last_col := 1, values := [some 200] }])] ∧
      get_adjustments .nextQtrs [10, 20, 30] [sidA, sidB] =
        [(1, some [{ first_row := 0, last_row := 0, first_col := 1,
                     last_col := 1, values := [some 200] }])] :=
  ⟨rfl, rfl, rfl⟩

/-- C4 failing input, evaluated: a crossover whose computed row index is the
grid length (Next strategy, event date 20 on grid `[10, 20]`) and one whose
computed row index is 0 (Previous strategy, event date 5) still insert an
entry — keyed by that out-of-window index and holding no overwrite — into
the adjustments dict handed to the `AdjustedArray`. -/
theorem get_adjustments_keeps_discarded_entry :
    get_adjustments .nextQtrs [10, 20] [sidLate] = [(2, none)] ∧
      get_adjustments .previousQtrs [10, 20] [sidEarly] = [(0, none)] :=
  ⟨rfl, rfl⟩
